import Mathlib

/-!
Verification development for the eSim Automated Tool Manager.

The Python sources (`config_manager.py`, `install_manager.py`,
`update_manager.py`, `dependency_checker.py`, `utils.py`, `constants.py`)
are shallowly embedded below.  Conventions of the embedding:

* JSON configuration documents are modelled by the inductive `Json`;
  Python dict lookups (`d.get(k, default)`, `k in d`, `d[k] = v`,
  `del d[k]`) become operations on association lists.  Python dicts have
  unique keys, so first-match lookup and remove-all erasure agree with
  the dict semantics.
* External effects (subprocess exit codes, `shutil.which`,
  `Path.exists`, `mkdir`, the Linux distro, the interactive yes/no
  prompt) are an `Oracle`: a fixed description of the host environment
  the program runs against.
* Mutable program state (the process environment `os.environ`, the two
  loaded configuration mappings, the persisted `user_config.json`
  content, the list of commands handed to `subprocess.run`, and the list
  of directories created) is the structure `St`, threaded explicitly.
* `pathlib.Path` is modelled with POSIX separators: a path is parsed
  into a root (number of leading slashes kept by pathlib: 0, 1 or 2)
  and its non-empty, non-`.` components; `str(Path(p))` is `pathNorm p`.
* Commands, paths and config values that the claims touch are strings;
  config values of other JSON types at positions where Python would
  raise a `TypeError` are not modelled (helpers default them to `""`).
-/

/-- JSON values, as loaded by `json.load`. -/
inductive Json where
  | null : Json
  | bool (b : Bool) : Json
  | str (s : String) : Json
  | num (n : Int) : Json
  | arr (elems : List Json) : Json
  | obj (fields : List (String × Json)) : Json

/-- First-match lookup in an association list (Python dict lookup). -/
def lookupKV {β : Type} (k : String) : List (String × β) → Option β
  | [] => none
  | p :: t => if p.1 = k then some p.2 else lookupKV k t

/-- Replace the value at a key, or append the pair (Python `d[k] = v`). -/
def setKV {β : Type} (k : String) (v : β) : List (String × β) → List (String × β)
  | [] => [(k, v)]
  | p :: t => if p.1 = k then (k, v) :: t else p :: setKV k v t

/-- Remove every pair with the given key (Python `del d[k]`; dicts have
unique keys, so removing all occurrences matches). -/
def eraseKV {β : Type} (k : String) : List (String × β) → List (String × β)
  | [] => []
  | p :: t => if p.1 = k then eraseKV k t else p :: eraseKV k t

/-- `d.get(k)` on a JSON object; `none` on absent keys and non-objects. -/
def Json.find? (j : Json) (k : String) : Option Json :=
  match j with
  | .obj fs => lookupKV k fs
  | _ => none

/-- `d.get(k, default)`. -/
def Json.getD (j : Json) (k : String) (d : Json) : Json :=
  (j.find? k).getD d

/-- `k in d` (dict membership). -/
def Json.member (j : Json) (k : String) : Bool :=
  (j.find? k).isSome

/-- Python truthiness of a JSON value (`if not config: ...`). -/
def Json.truthy : Json → Bool
  | .null => false
  | .bool b => b
  | .str s => !(s == "")
  | .num n => !(n == 0)
  | .arr es => !es.isEmpty
  | .obj fs => !fs.isEmpty

/-- The field list of a JSON object (`[]` for non-objects). -/
def Json.fields : Json → List (String × Json)
  | .obj fs => fs
  | _ => []

/-- `d[k] = v` on a JSON object. -/
def Json.set (j : Json) (k : String) (v : Json) : Json :=
  .obj (setKV k v j.fields)

/-- `d.get(k, "")` for a string-valued key: the string value if the key
holds one, `""` otherwise. -/
def Json.getStr (j : Json) (k : String) : String :=
  match j.find? k with
  | some (.str s) => s
  | _ => ""

/-- `d.get(k, default)` for a string-valued key with a string default:
the default applies only when the key is absent. -/
def Json.getStrD (j : Json) (k : String) (d : String) : String :=
  match j.find? k with
  | some (.str s) => s
  | some _ => ""
  | none => d

/-- A JSON object of string values as environment-variable pairs
(`for key, value in env_vars.items()`). -/
def Json.envPairs (j : Json) : List (String × String) :=
  j.fields.filterMap (fun p =>
    match p.2 with
    | .str s => some (p.1, s)
    | _ => none)

/-- A JSON array of strings as a string list (the `dependencies` list). -/
def Json.strList (j : Json) : List String :=
  match j with
  | .arr es => es.filterMap (fun e =>
      match e with
      | .str s => some s
      | _ => none)
  | _ => []

/-! ### The POSIX `pathlib.Path` model -/

/-- Split a character list at every `'/'` (`"a/b".split("/")`). -/
def splitSlash : List Char → List (List Char)
  | [] => [[]]
  | c :: cs =>
    if c = '/' then [] :: splitSlash cs
    else
      match splitSlash cs with
      | [] => [[c]]
      | p :: ps => (c :: p) :: ps

/-- Join character lists with `'/'` between them. -/
def joinSlash : List (List Char) → List Char
  | [] => []
  | [p] => p
  | p :: ps => p ++ '/' :: joinSlash ps

/-- A path component survives pathlib parsing when it is neither empty
nor the literal `.`. -/
def goodPart (p : List Char) : Bool :=
  !(p.isEmpty) && !(p = ['.'] : Bool)

/-- Number of leading slashes pathlib keeps as the root: `//x` keeps
two, any other absolute path keeps one, relative paths keep none. -/
def rootSlashes (cs : List Char) : Nat :=
  match cs with
  | [] => 0
  | c :: rest =>
    if c = '/' then
      match rest with
      | [] => 1
      | c2 :: rest2 =>
        if c2 = '/' then (if rest2.head? = some '/' then 1 else 2) else 1
    else 0

/-- The parsed components of a path. -/
def pathParts (cs : List Char) : List (List Char) :=
  (splitSlash cs).filter goodPart

/-- Render a parsed path back to text, as `str(Path(...))` does:
a bare relative path renders as `.`. -/
def renderPath (root : Nat) (parts : List (List Char)) : List Char :=
  List.replicate root '/' ++
    (if parts.isEmpty then (if root = 0 then ['.'] else []) else joinSlash parts)

/-- `str(Path(s))` on character lists. -/
def pathNormL (cs : List Char) : List Char :=
  renderPath (rootSlashes cs) (pathParts cs)

/-- `str(Path(s))`: pathlib normalisation of a path string. -/
def pathNorm (s : String) : String :=
  String.mk (pathNormL s.data)

/-! ### Host environment oracle and program state -/

/-- The host environment a run of the tool manager observes: everything
the program reads from outside its own state.  `runExit cmd` is the exit
status of `subprocess.run(cmd, shell=True)`, `none` meaning the run
itself raised an exception. -/
structure Oracle where
  system : String
  isAdmin : Bool
  distroOs : String
  distroId : String
  home : String
  runExit : String → Option Int
  which : String → Bool
  pathExists : String → Bool
  mkdirOk : String → Bool
  promptYes : Bool

/-- Mutable state of a run: the process environment, the two loaded
configuration mappings and the resolved install path (the
`ConfigManager` fields), the persisted content of `user_config.json`,
the commands handed to `subprocess.run` in order, and the directories
created. -/
structure St where
  environ : List (String × String)
  toolsConfig : Json
  userConfig : Json
  userFile : Option Json
  installPath : String
  trace : List String
  dirs : List String

/-! ### utils.py -/

/-- `utils.run_command(command, shell=True, check, ...)`: returns the
completed process's exit status, or `none` when `subprocess.run` raised
(in particular `CalledProcessError` when `check` is set and the status
is non-zero); the attempted command is recorded either way. -/
def runCommand (o : Oracle) (s : St) (cmd : String) (check : Bool) :
    Option Int × St :=
  let res :=
    match o.runExit cmd with
    | some c => if check && !(c == 0) then none else some c
    | none => none
  (res, { s with trace := s.trace ++ [cmd] })

/-- `utils.is_tool_available`: `shutil.which(tool_name) is not None`. -/
def isToolAvailable (o : Oracle) (name : String) : Bool :=
  o.which name

/-- Python substring test `needle in hay` on character lists. -/
def isSubList (needle : List Char) : List Char → Bool
  | [] => needle.isEmpty
  | c :: t => needle.isPrefixOf (c :: t) || isSubList needle t

/-- `os.pathsep`. -/
def pathSep (o : Oracle) : String :=
  if o.system == "windows" then ";" else ":"

/-- The environment after `utils.add_to_path(path)`: prepend the path to
`PATH` unless it already occurs in it as a substring.  (A missing `PATH`
entry, where Python would raise `KeyError`, is modelled as `""`.) -/
def envAddPath (o : Oracle) (e : List (String × String)) (p : String) :
    List (String × String) :=
  let cur := (lookupKV ("PATH") e).getD ""
  if isSubList p.data cur.data then e
  else setKV ("PATH") (p ++ pathSep o ++ cur) e

/-- `utils.add_to_path` acting on the program state. -/
def addToPath (o : Oracle) (s : St) (p : String) : St :=
  { s with environ := envAddPath o s.environ p }

/-- `utils.create_directory`: `mkdir(parents=True, exist_ok=True)`,
`True` on success; the state records successfully created directories. -/
def createDirectory (o : Oracle) (s : St) (p : String) : Bool × St :=
  if o.mkdirOk p then (true, { s with dirs := s.dirs ++ [p] })
  else (false, s)

/-! ### config_manager.py -/

/-- `ConfigManager.load_config`: the parsed JSON document, or `{}` when
the file is missing, is invalid JSON, or cannot be read (`none`). -/
def loadConfig : Option Json → Json :=
  fun f => f.getD (.obj [])

/-- `constants.DEFAULT_PATHS[SYSTEM]`. -/
def defaultInstallPath (o : Oracle) : String :=
  if o.system == "windows" then "C:\\esim-tools" else o.home ++ "/esim-tools"

/-- `ConfigManager.get_install_path`: `Path(user_config["install_path"])`
when the key is present, else the OS default. -/
def getInstallPath (o : Oracle) (userConfig : Json) : String :=
  match userConfig.find? ("install_path") with
  | some v =>
    pathNorm (match v with
              | .str s => s
              | _ => "")
  | none => defaultInstallPath o

/-- `ConfigManager.__init__`: load both config files and resolve the
install path; fresh trace and directory lists, given process environ. -/
def initSt (o : Oracle) (toolsFile userFile : Option Json)
    (environ : List (String × String)) : St :=
  let uc := loadConfig userFile
  { environ := environ
    toolsConfig := loadConfig toolsFile
    userConfig := uc
    userFile := userFile
    installPath := getInstallPath o uc
    trace := []
    dirs := [] }

/-- `ConfigManager.save_user_config`: `json.dump(self.user_config, f)`. -/
def saveUserConfig (s : St) : St :=
  { s with userFile := some s.userConfig }

/-- `ConfigManager.set_install_path`: store `str(Path(path))` in the
user config, update the resolved install path, and save. -/
def setInstallPath (s : St) (p : String) : St :=
  saveUserConfig
    { s with
      userConfig := s.userConfig.set ("install_path") (.str (pathNorm p))
      installPath := pathNorm p }

/-- `ConfigManager.get_tool_config`:
`tools_config.get("tools", {}).get(tool_name, {})`. -/
def getToolConfig (s : St) (name : String) : Json :=
  (s.toolsConfig.getD ("tools") (.obj [])).getD name (.obj [])

/-- `ConfigManager.get_platform_config`, exactly as written: the
`SYSTEM in tool_config` test runs first, so on Linux a present `linux`
block is returned whole and the distro branch below is reached only
when no `linux` key exists. -/
def getPlatformConfig (o : Oracle) (tc : Json) : Json :=
  if tc.member o.system then tc.getD o.system (.obj [])
  else if o.system == "linux" then
    let lc := tc.getD ("linux") (.obj [])
    lc.getD o.distroOs lc
  else .obj []

/-! ### dependency_checker.py -/

/-- `constants.PACKAGE_MANAGERS["linux"]`. -/
def packageManagersLinux (d : String) : Option String :=
  if d == "ubuntu" then some "apt-get"
  else if d == "debian" then some "apt-get"
  else if d == "fedora" then some "dnf"
  else if d == "centos" then some "yum"
  else none

/-- `DependencyChecker.get_package_manager` (the Linux branch uses
`distro.id()`); `""` when none is available. -/
def getPackageManager (o : Oracle) : String :=
  if o.system == "windows" then
    (if o.which ("choco") then "choco" else "")
  else if o.system == "darwin" then
    (if o.which ("brew") then "brew" else "")
  else if o.system == "linux" then
    match packageManagersLinux o.distroId with
    | some pm => if o.which pm then pm else ""
    | none => ""
  else ""

/-- The declared dependencies of a tool config:
`tool_config.get("dependencies", [])`. -/
def depsOf (tc : Json) : List String :=
  (tc.getD ("dependencies") (.arr [])).strList

/-- `DependencyChecker.check_tool_dependencies`: collect the declared
dependencies not found on `PATH`; `(True, [])` when none are missing. -/
def checkToolDependencies (o : Oracle) (tc : Json) : Bool × List String :=
  let missing := (depsOf tc).filter (fun d => !(isToolAvailable o d))
  if missing.isEmpty then (true, []) else (false, missing)

/-- `DependencyChecker.install_system_dependencies`: build the package
manager command and run it; success iff `run_command` did not fail. -/
def installSystemDependencies (o : Oracle) (s : St) (deps : List String) :
    Bool × St :=
  let pm := getPackageManager o
  if pm == "" then (false, s)
  else if o.system == "windows" && (pm == "choco") then
    let r := runCommand o s ("choco install " ++ String.intercalate (" ") deps ++ " -y") true
    (r.1.isSome, r.2)
  else if o.system == "darwin" && (pm == "brew") then
    let r := runCommand o s ("brew install " ++ String.intercalate (" ") deps) true
    (r.1.isSome, r.2)
  else if o.system == "linux" && !(pm == "") then
    let r := runCommand o s ("sudo " ++ pm ++ " install -y " ++ String.intercalate (" ") deps) true
    (r.1.isSome, r.2)
  else (false, s)

/-! ### install_manager.py -/

/-- The version-check command `is_tool_installed` resolves:
`platform_config.get("version_check", tool_config.get("version_check", ""))`. -/
def versionCmdOf (pc tc : Json) : String :=
  match pc.find? ("version_check") with
  | some (.str s) => s
  | some _ => ""
  | none => tc.getStr ("version_check")

/-- The executable name `is_tool_installed` probes for:
`tool_config.get("executable", tool_name)`, with `.exe` on Windows. -/
def execNameOf (o : Oracle) (tc : Json) (name : String) : String :=
  tc.getStrD ("executable") name ++ (if o.system == "windows" then ".exe" else "")

/-- The expected executable path: `install_path / tool_name / "bin" / exec_name`. -/
def execPathOf (o : Oracle) (s : St) (tc : Json) (name : String) : String :=
  s.installPath ++ "/" ++ name ++ "/bin/" ++ execNameOf o tc name

/-- `InstallManager.is_tool_installed`: empty config means not
installed; otherwise try the version-check command, then the expected
executable path, then a `PATH` lookup. -/
def isToolInstalled (o : Oracle) (s : St) (name : String) (tcOpt : Option Json) :
    Bool × St :=
  let tc := tcOpt.getD (getToolConfig s name)
  if !tc.truthy then (false, s)
  else
    let pc := getPlatformConfig o tc
    let vcmd := versionCmdOf pc tc
    let probe :=
      if vcmd == "" then ((false : Bool), s)
      else
        let r := runCommand o s vcmd false
        (r.1 == some (0 : Int), r.2)
    if probe.1 then (true, probe.2)
    else if o.pathExists (execPathOf o s tc name) then (true, probe.2)
    else if isToolAvailable o (execNameOf o tc name) then (true, probe.2)
    else (false, probe.2)

/-- `InstallManager.prompt_install_dependencies`: the interactive yes/no
answer; UI failures (which the code folds to `False`) are part of the
oracle's answer. -/
def promptInstallDependencies (o : Oracle) : Bool :=
  o.promptYes

/-- `InstallManager._save_environment_variables`: ensure
`user_config["environment"][tool_name]` exists, merge the tool's
environment variables into it, and save. -/
def saveEnvironmentVariables (s : St) (name : String)
    (envVars : List (String × String)) : St :=
  let envMap := s.userConfig.getD ("environment") (.obj [])
  let toolEntry := (lookupKV name envMap.fields).getD (.obj [])
  let updated :=
    envVars.foldl (fun acc p => setKV p.1 (Json.str p.2) acc) toolEntry.fields
  let newUC :=
    s.userConfig.set ("environment") (.obj (setKV name (.obj updated) envMap.fields))
  saveUserConfig { s with userConfig := newUC }

/-- The part of `InstallManager.install_tool` below the dependency
pre-flight (lines 56-99 of `install_manager.py`): platform resolution,
install-command lookup, directory creation, transient environment
mutation around the single install command, `add_to_path`, and
persisting the environment variables.  `pc` is the platform config of
the tool being installed and `s2` the state the dependency phase left. -/
def installToolCont (o : Oracle) (name : String) (pc : Json) (s2 : St) :
    Bool × String × St :=
  if !pc.truthy then
    (false, "No installation instructions for " ++ name ++ " on this platform", s2)
  else
    let icmd := pc.getStr ("install")
    if icmd == "" then
      (false, "No install command defined for " ++ name, s2)
    else
      let ipath := s2.installPath ++ "/" ++ name
      let mkR := createDirectory o s2 ipath
      if !mkR.1 then
        (false, "Failed to create installation directory: " ++ ipath, mkR.2)
      else
        let s3 := mkR.2
        let envVars := (pc.getD ("environment") (.obj [])).envPairs
        let origEnv := s3.environ
        let s4 := { s3 with
          environ := envVars.foldl (fun acc p => setKV p.1 p.2 acc) s3.environ }
        let runR := runCommand o s4 icmd true
        let s6 := { runR.2 with environ := origEnv }
        if runR.1.isNone then
          (false, "Installation of " ++ name ++ " failed", s6)
        else
          let s7 :=
            if (pc.getD ("add_to_path") (.bool false)).truthy then
              addToPath o s6 (ipath ++ "/bin")
            else s6
          let s8 := saveEnvironmentVariables s7 name envVars
          let msg :=
            "Successfully installed " ++ name ++ "." ++
              (if envVars.isEmpty then "" else
                " Please note: to make environment variables permanent, you may need to set them manually or restart your terminal.")
          (true, msg, s8)

/-- `InstallManager.install_tool`, straight-line embedding of the
source: the Windows/Chocolatey administrator gate, config lookup,
already-installed check, dependency pre-flight (with interactive
dependency installation), then `installToolCont` for the rest. -/
def installTool (o : Oracle) (s : St) (name : String) : Bool × String × St :=
  if o.system == "windows" && !o.isAdmin && (getPackageManager o == "choco") then
    (false, "Administrator privileges are required to install tools with Chocolatey. Please run the terminal as an administrator.", s)
  else
    let tc := getToolConfig s name
    if !tc.truthy then
      (false, "Tool " ++ name ++ " not found in configuration", s)
    else
      let instR := isToolInstalled o s name (some tc)
      if instR.1 then
        (true, "Tool " ++ name ++ " is already installed", instR.2)
      else
        let depR := checkToolDependencies o tc
        if !depR.1 && !depR.2.isEmpty then
          if promptInstallDependencies o then
            let depInst := installSystemDependencies o instR.2 depR.2
            if !depInst.1 then
              (false, "Failed to install dependencies: " ++ String.intercalate (", ") depR.2, depInst.2)
            else installToolCont o name (getPlatformConfig o tc) depInst.2
          else
            (false, "Missing dependencies: " ++ String.intercalate (", ") depR.2, instR.2)
        else installToolCont o name (getPlatformConfig o tc) instR.2

/-- `InstallManager.uninstall_tool`: config lookup, installed check
(success with an informational message when not installed), uninstall
command resolution and execution, then removal of the tool's saved
environment variables from the user config. -/
def uninstallTool (o : Oracle) (s : St) (name : String) : Bool × String × St :=
  let tc := getToolConfig s name
  if !tc.truthy then
    (false, "Tool " ++ name ++ " not found in configuration", s)
  else
    let instR := isToolInstalled o s name (some tc)
    if !instR.1 then
      (true, "Tool " ++ name ++ " is not installed.", instR.2)
    else
      let pc := getPlatformConfig o tc
      let ucmd := pc.getStr ("uninstall")
      if ucmd == "" then
        (false, "No uninstall command defined for " ++ name ++ " on this platform.", instR.2)
      else
        let runR := runCommand o instR.2 ucmd true
        if runR.1.isNone then
          (false, "Uninstallation of " ++ name ++ " failed.", runR.2)
        else
          let s2 := runR.2
          let s3 :=
            if s2.userConfig.member ("environment") &&
               (s2.userConfig.getD ("environment") (.obj [])).member name then
              saveUserConfig { s2 with
                userConfig := s2.userConfig.set ("environment")
                  (.obj (eraseKV name (s2.userConfig.getD ("environment") (.obj [])).fields)) }
            else s2
          (true, "Successfully uninstalled " ++ name ++ ".", s3)

/-! ### update_manager.py -/

/-- `UpdateManager.update_tool`: config lookup, installed check,
platform resolution, update command resolution and a single execution
whose exit status decides success. -/
def updateTool (o : Oracle) (s : St) (name : String) : Bool × String × St :=
  let tc := getToolConfig s name
  if !tc.truthy then
    (false, "Tool " ++ name ++ " not found in configuration", s)
  else
    let instR := isToolInstalled o s name (some tc)
    if !instR.1 then
      (false, "Tool " ++ name ++ " is not installed", instR.2)
    else
      let pc := getPlatformConfig o tc
      if !pc.truthy then
        (false, "No update instructions for " ++ name ++ " on this platform", instR.2)
      else
        let ucmd := pc.getStr ("update")
        if ucmd == "" then
          (false, "No update command defined for " ++ name, instR.2)
        else
          let runR := runCommand o instR.2 ucmd true
          if runR.1.isNone then
            (false, "Update of " ++ name ++ " failed", runR.2)
          else (true, "Successfully updated " ++ name, runR.2)

/-! ### Association-list lemmas -/

theorem lookupKV_setKV_self {β : Type} (k : String) (v : β) (l : List (String × β)) :
    lookupKV k (setKV k v l) = some v := by
  induction l with
  | nil => simp [setKV, lookupKV]
  | cons p t ih =>
    by_cases h : p.1 = k
    · simp [setKV, h, lookupKV]
    · simp [setKV, h, lookupKV, ih]

theorem lookupKV_setKV_other {β : Type} (k k' : String) (v : β)
    (l : List (String × β)) (hne : k ≠ k') :
    lookupKV k' (setKV k v l) = lookupKV k' l := by
  induction l with
  | nil => simp [setKV, lookupKV, hne]
  | cons p t ih =>
    by_cases h : p.1 = k
    · simp [setKV, h, lookupKV, hne, ih]
    · simp only [setKV, h, if_false, lookupKV]
      by_cases h2 : p.1 = k'
      · simp [h2]
      · simp [h2, ih]

theorem lookupKV_eraseKV_other {β : Type} (k k' : String)
    (l : List (String × β)) (hne : k ≠ k') :
    lookupKV k' (eraseKV k l) = lookupKV k' l := by
  induction l with
  | nil => simp [eraseKV]
  | cons p t ih =>
    by_cases h : p.1 = k
    · simp [eraseKV, h, lookupKV, hne, ih]
    · simp only [eraseKV, h, if_false, lookupKV]
      by_cases h2 : p.1 = k'
      · simp [h2]
      · simp [h2, ih]

/-! ### Frame lemmas: `isToolInstalled` only extends the trace -/

theorem isToolInstalled_frame (o : Oracle) (s : St) (name : String)
    (tcOpt : Option Json) :
    (isToolInstalled o s name tcOpt).2 =
      { s with trace := (isToolInstalled o s name tcOpt).2.trace } := by
  simp only [isToolInstalled, runCommand]
  repeat' split
  all_goals rfl

theorem isToolInstalled_trace (o : Oracle) (s : St) (name : String)
    (tcOpt : Option Json) :
    (isToolInstalled o s name tcOpt).2.trace = s.trace ∨
      (isToolInstalled o s name tcOpt).2.trace =
        s.trace ++ [versionCmdOf
          (getPlatformConfig o (tcOpt.getD (getToolConfig s name)))
          (tcOpt.getD (getToolConfig s name))] := by
  simp only [isToolInstalled, runCommand]
  repeat' split
  all_goals first | (left; rfl) | (right; rfl)

/-! ### Path normalisation round-trip -/

theorem splitSlash_ne_nil (cs : List Char) : splitSlash cs ≠ [] := by
  induction cs with
  | nil => simp [splitSlash]
  | cons c t ih =>
    simp only [splitSlash]
    split
    · simp
    · split <;> simp_all

theorem noslash_of_mem_splitSlash (cs : List Char) (p : List Char)
    (hp : p ∈ splitSlash cs) : '/' ∉ p := by
  induction cs generalizing p with
  | nil => simp [splitSlash] at hp; simp [hp]
  | cons c t ih =>
    simp only [splitSlash] at hp
    by_cases hc : c = '/'
    · simp [hc] at hp
      rcases hp with h | h
      · simp [h]
      · exact ih p h
    · simp only [hc, if_false] at hp
      rcases hsp : splitSlash t with _ | ⟨q, qs⟩
      · exact absurd hsp (splitSlash_ne_nil t)
      · rw [hsp] at hp
        rcases List.mem_cons.mp hp with h | h
        · subst h
          intro hmem
          rcases List.mem_cons.mp hmem with h | h
          · exact hc h.symm
          · exact ih q (by rw [hsp]; exact List.mem_cons_self q qs) h
        · exact ih p (by rw [hsp]; exact List.mem_cons_of_mem q h)

theorem splitSlash_append_noslash (p cs : List Char) (hns : '/' ∉ p) :
    splitSlash (p ++ cs) =
      (p ++ (splitSlash cs).headI) :: (splitSlash cs).tail := by
  induction p with
  | nil =>
    rcases hsp : splitSlash cs with _ | ⟨q, qs⟩
    · exact absurd hsp (splitSlash_ne_nil cs)
    · simp [hsp]
  | cons c t ih =>
    have hc : ¬ c = '/' := fun h => hns (by simp [h])
    have ht : '/' ∉ t := fun h => hns (List.mem_cons_of_mem c h)
    simp only [List.cons_append, splitSlash, hc, if_false, List.append_eq]
    rw [ih ht]

theorem splitSlash_joinSlash (ps : List (List Char)) (hne : ps ≠ [])
    (hns : ∀ p ∈ ps, '/' ∉ p) : splitSlash (joinSlash ps) = ps := by
  induction ps with
  | nil => exact absurd rfl hne
  | cons p t ih =>
    rcases t with _ | ⟨q, qs⟩
    · have hp : '/' ∉ p := hns p (List.mem_cons_self p [])
      have := splitSlash_append_noslash p [] hp
      simpa [joinSlash, splitSlash] using this
    · have hp : '/' ∉ p := hns p (List.mem_cons_self p (q :: qs))
      have ht : ∀ r ∈ q :: qs, '/' ∉ r := fun r hr => hns r (List.mem_cons_of_mem p hr)
      have hX := ih (by simp) ht
      calc splitSlash (joinSlash (p :: q :: qs))
          = splitSlash (p ++ '/' :: joinSlash (q :: qs)) := by
            simp [joinSlash]
        _ = (p ++ (splitSlash ('/' :: joinSlash (q :: qs))).headI) ::
              (splitSlash ('/' :: joinSlash (q :: qs))).tail :=
            splitSlash_append_noslash _ _ hp
        _ = p :: q :: qs := by simp [splitSlash, hX]

theorem splitSlash_replicate (n : Nat) (cs : List Char) :
    splitSlash (List.replicate n '/' ++ cs) =
      List.replicate n [] ++ splitSlash cs := by
  induction n with
  | zero => simp
  | succ m ih => simp [List.replicate_succ, splitSlash, ih]

theorem filter_goodPart_replicate (n : Nat) (l : List (List Char)) :
    (List.replicate n ([] : List Char) ++ l).filter goodPart = l.filter goodPart := by
  induction n with
  | zero => simp
  | succ m ih => simp [List.replicate_succ, List.filter, goodPart, ih]

theorem joinSlash_cons_exists (p : List Char) (ps : List (List Char)) :
    ∃ t, joinSlash (p :: ps) = p ++ t := by
  rcases ps with _ | ⟨q, qs⟩
  · exact ⟨[], by simp [joinSlash]⟩
  · exact ⟨'/' :: joinSlash (q :: qs), by simp [joinSlash]⟩

theorem rootSlashes_renderPath (r : Nat) (parts : List (List Char))
    (hr : r ≤ 2) (hgood : ∀ p ∈ parts, goodPart p = true)
    (hns : ∀ p ∈ parts, '/' ∉ p) :
    rootSlashes (renderPath r parts) = r := by
  rcases parts with _ | ⟨p, ps⟩
  · interval_cases r <;> simp [renderPath, rootSlashes]
  · have hp : goodPart p = true := hgood p (List.mem_cons_self p ps)
    have hpns : '/' ∉ p := hns p (List.mem_cons_self p ps)
    obtain ⟨t, ht⟩ := joinSlash_cons_exists p ps
    rcases p with _ | ⟨c, cs⟩
    · simp [goodPart] at hp
    · have hcne : ¬ c = '/' := fun h => hpns (by simp [h])
      interval_cases r <;>
        simp [renderPath, ht, rootSlashes, hcne]

theorem pathParts_renderPath (r : Nat) (parts : List (List Char))
    (hgood : ∀ p ∈ parts, goodPart p = true)
    (hns : ∀ p ∈ parts, '/' ∉ p) :
    pathParts (renderPath r parts) = parts := by
  rcases parts with _ | ⟨p, ps⟩
  · rcases Nat.eq_zero_or_pos r with hri | hri
    · subst hri
      simp [renderPath, pathParts, splitSlash, goodPart]
    · have : ¬ r = 0 := Nat.pos_iff_ne_zero.mp hri
      simp only [renderPath, List.isEmpty_nil, if_true, this, if_false, List.append_nil]
      rw [pathParts, show (List.replicate r '/' : List Char) = List.replicate r '/' ++ [] by simp,
        splitSlash_replicate]
      simp [splitSlash, filter_goodPart_replicate, goodPart]
  · have hne : (p :: ps) ≠ [] := by simp
    simp only [renderPath, List.isEmpty_cons, pathParts]
    have hif : (if (false = true) then (if r = 0 then (['.'] : List Char) else []) else joinSlash (p :: ps)) = joinSlash (p :: ps) := by simp
    rw [hif, splitSlash_replicate, filter_goodPart_replicate,
      splitSlash_joinSlash (p :: ps) hne hns]
    exact List.filter_eq_self.mpr hgood

theorem rootSlashes_le_two (cs : List Char) : rootSlashes cs ≤ 2 := by
  rcases cs with _ | ⟨c, rest⟩
  · simp [rootSlashes]
  · rcases rest with _ | ⟨c2, rest2⟩
    · simp only [rootSlashes]
      split <;> simp
    · simp only [rootSlashes]
      split
      · split
        · split <;> omega
        · omega
      · omega

theorem pathNormL_idem (cs : List Char) : pathNormL (pathNormL cs) = pathNormL cs := by
  have hgood : ∀ p ∈ pathParts cs, goodPart p = true := by
    intro p hp
    exact List.of_mem_filter hp
  have hns : ∀ p ∈ pathParts cs, '/' ∉ p := by
    intro p hp
    exact noslash_of_mem_splitSlash cs p (List.mem_of_mem_filter hp)
  unfold pathNormL
  rw [rootSlashes_renderPath (rootSlashes cs) (pathParts cs) (rootSlashes_le_two cs) hgood hns,
    pathParts_renderPath (rootSlashes cs) (pathParts cs) hgood hns]

theorem pathNorm_idem (s : String) : pathNorm (pathNorm s) = pathNorm s := by
  unfold pathNorm
  exact congrArg String.mk (pathNormL_idem s.data)

/-! ### Concrete fixtures for witnesses and counterexamples -/

/-- A Linux/Ubuntu host on which nothing is installed, every command
fails, and the user declines prompts. -/
def baseOracle : Oracle :=
  { system := "linux"
    isAdmin := false
    distroOs := "ubuntu"
    distroId := "ubuntu"
    home := "/root"
    runExit := fun _ => none
    which := fun _ => false
    pathExists := fun _ => false
    mkdirOk := fun _ => false
    promptYes := false }

/-- A tool definition whose `linux` block carries per-distro sub-blocks,
as the spec's platform-resolution description assumes. -/
def tcLinuxDistro : Json :=
  .obj [("linux", .obj [("ubuntu", .obj [("install", .str "apt-get install -y ngspice")])])]

/-- A plain tool definition with Linux commands at the `linux` level. -/
def tcNgspice : Json :=
  .obj [("executable", .str "ngspice"),
        ("linux", .obj [("install", .str "sudo apt-get install -y ngspice"),
                        ("update", .str "sudo apt-get upgrade -y ngspice"),
                        ("uninstall", .str "sudo apt-get remove -y ngspice")])]

/-- A state whose tools configuration defines the two tools above. -/
def baseSt : St :=
  { environ := [("PATH", "/usr/bin")]
    toolsConfig := .obj [("tools", .obj [("ngspice", tcNgspice), ("kicad", tcLinuxDistro)])]
    userConfig := .obj []
    userFile := none
    installPath := "/root/esim-tools"
    trace := []
    dirs := [] }

/-! ### C2 — platform resolution for Linux distros -/

/-- C2, evaluated on the code at the failing input: for a tool whose
`linux` block holds only an `ubuntu` sub-block, on an Ubuntu host
`get_platform_config` returns the entire `linux` block — not the
`ubuntu` sub-block the claim (and the code's own comments) describe —
so the returned block has no `install` command even though the `ubuntu`
sub-block defines one.  The `SYSTEM in tool_config` test on line 117 of
`config_manager.py` also catches `"linux"`, so the distro-resolution
branch below it is unreachable whenever a `linux` block exists. -/
theorem c2_distro_resolution_dead_code :
    getPlatformConfig baseOracle tcLinuxDistro =
      Json.obj [("ubuntu", Json.obj [("install", Json.str "apt-get install -y ngspice")])] ∧
    (getPlatformConfig baseOracle tcLinuxDistro).getStr ("install") = "" ∧
    (Json.getD (Json.getD tcLinuxDistro ("linux") (.obj [])) baseOracle.distroOs
        (Json.getD tcLinuxDistro ("linux") (.obj []))).getStr ("install") =
      "apt-get install -y ngspice" := by
  refine ⟨rfl, rfl, rfl⟩

/-! ### C5 — install path persistence -/

/-- C5, counterexample: after `set_install_path("/a/b/")` the user
config's `install_path` entry does not hold the string `"/a/b/"` — the
code stores `str(Path(path))`, which normalises it to `"/a/b"`. -/
theorem c5_counterexample :
    ¬ ((setInstallPath baseSt "/a/b/").userConfig.find? ("install_path") =
        some (Json.str "/a/b/")) := by
  intro h
  have h1 : (setInstallPath baseSt "/a/b/").userConfig.find? ("install_path") =
      some (Json.str "/a/b") := by rfl
  rw [h1] at h
  injection h with h2
  injection h2 with h3
  exact absurd h3 (by decide)

/-- C5 (amended): after `set_install_path(p)` the user config's
`install_path` entry holds `str(Path(p))` — `p` with pathlib
normalisation applied — the value is saved to the user config file, and
a reload of that file followed by `get_install_path` returns a path
equal to `Path(p)` (`pathNorm p`), not the OS default. -/
theorem c5_set_install_path_roundtrip (o : Oracle) (s : St) (p : String) :
    (setInstallPath s p).userConfig.find? ("install_path") =
        some (Json.str (pathNorm p)) ∧
    (setInstallPath s p).userFile = some (setInstallPath s p).userConfig ∧
    getInstallPath o (loadConfig (setInstallPath s p).userFile) = pathNorm p := by
  have hfind : (setInstallPath s p).userConfig.find? ("install_path") =
      some (Json.str (pathNorm p)) := by
    simp only [setInstallPath, saveUserConfig, Json.set, Json.find?]
    exact lookupKV_setKV_self _ _ _
  refine ⟨hfind, rfl, ?_⟩
  simp only [setInstallPath, saveUserConfig, loadConfig, Option.getD_some]
  show getInstallPath o ((Json.set s.userConfig ("install_path") (.str (pathNorm p)))) = pathNorm p
  simp only [getInstallPath, Json.set, Json.find?, lookupKV_setKV_self]
  exact pathNorm_idem p

/-! ### Helper corollaries of the frame lemmas -/

theorem isToolInstalled_environ (o : Oracle) (s : St) (name : String)
    (tcOpt : Option Json) :
    (isToolInstalled o s name tcOpt).2.environ = s.environ := by
  rw [isToolInstalled_frame]

theorem isToolInstalled_userConfig (o : Oracle) (s : St) (name : String)
    (tcOpt : Option Json) :
    (isToolInstalled o s name tcOpt).2.userConfig = s.userConfig := by
  rw [isToolInstalled_frame]

theorem isToolInstalled_userFile (o : Oracle) (s : St) (name : String)
    (tcOpt : Option Json) :
    (isToolInstalled o s name tcOpt).2.userFile = s.userFile := by
  rw [isToolInstalled_frame]

theorem isToolInstalled_dirs (o : Oracle) (s : St) (name : String)
    (tcOpt : Option Json) :
    (isToolInstalled o s name tcOpt).2.dirs = s.dirs := by
  rw [isToolInstalled_frame]

theorem isToolInstalled_installPath (o : Oracle) (s : St) (name : String)
    (tcOpt : Option Json) :
    (isToolInstalled o s name tcOpt).2.installPath = s.installPath := by
  rw [isToolInstalled_frame]

theorem isToolInstalled_toolsConfig (o : Oracle) (s : St) (name : String)
    (tcOpt : Option Json) :
    (isToolInstalled o s name tcOpt).2.toolsConfig = s.toolsConfig := by
  rw [isToolInstalled_frame]

theorem truthy_of_isToolInstalled (o : Oracle) (s : St) (name : String)
    (tc : Json) (h : (isToolInstalled o s name (some tc)).1 = true) :
    tc.truthy = true := by
  cases htc : tc.truthy with
  | true => rfl
  | false => simp [isToolInstalled, htc] at h

/-! ### C1 — installing an already-installed tool -/

/-- C1, counterexample to the claim as stated: on a Windows host without
administrator rights where Chocolatey is the detected package manager,
`install_tool` fails with the admin-rights message even though
`is_tool_installed` reports the tool installed — the admin gate at the
top of `install_tool` runs before the already-installed check. -/
theorem c1_counterexample :
    (isToolInstalled { baseOracle with system := "windows", which := fun _ => true }
        baseSt "ngspice" (some (getToolConfig baseSt "ngspice"))).1 = true ∧
    (installTool { baseOracle with system := "windows", which := fun _ => true }
        baseSt "ngspice").1 = false := by
  exact ⟨rfl, rfl⟩

/-- C1 (amended): unless the call is rejected by the Windows/Chocolatey
administrator gate, installing a tool that `is_tool_installed` reports
installed returns `(True, already-installed message)` and changes no
state: environment, user config, saved user-config file and created
directories are untouched, and at most the version-check probe — never
an install command — is run. -/
theorem c1_already_installed_noop (o : Oracle) (s : St) (name : String)
    (hgate : (o.system == "windows" && !o.isAdmin &&
      (getPackageManager o == "choco")) = false)
    (hinst : (isToolInstalled o s name (some (getToolConfig s name))).1 = true) :
    installTool o s name =
      (true, "Tool " ++ name ++ " is already installed",
        (isToolInstalled o s name (some (getToolConfig s name))).2) ∧
    (isToolInstalled o s name (some (getToolConfig s name))).2.environ = s.environ ∧
    (isToolInstalled o s name (some (getToolConfig s name))).2.userConfig = s.userConfig ∧
    (isToolInstalled o s name (some (getToolConfig s name))).2.userFile = s.userFile ∧
    (isToolInstalled o s name (some (getToolConfig s name))).2.dirs = s.dirs ∧
    ((isToolInstalled o s name (some (getToolConfig s name))).2.trace = s.trace ∨
      (isToolInstalled o s name (some (getToolConfig s name))).2.trace =
        s.trace ++ [versionCmdOf (getPlatformConfig o (getToolConfig s name))
          (getToolConfig s name)]) := by
  have htc : (getToolConfig s name).truthy = true :=
    truthy_of_isToolInstalled o s name _ hinst
  refine ⟨?_, isToolInstalled_environ o s name _, isToolInstalled_userConfig o s name _,
    isToolInstalled_userFile o s name _, isToolInstalled_dirs o s name _, ?_⟩
  · simp [installTool, hgate, htc, hinst]
  · have := isToolInstalled_trace o s name (some (getToolConfig s name))
    simpa using this

/-- C1 witness: on a Linux host where the tool's executable is on
`PATH`, installing it is the described no-op. -/
theorem c1_witness :
    installTool { baseOracle with which := fun _ => true } baseSt "ngspice" =
      (true, "Tool ngspice is already installed",
        (isToolInstalled { baseOracle with which := fun _ => true } baseSt "ngspice"
          (some (getToolConfig baseSt "ngspice"))).2) :=
  (c1_already_installed_noop { baseOracle with which := fun _ => true } baseSt "ngspice"
    (by decide) (by rfl)).1

/-! ### C4 — uninstalling a never-installed tool -/

/-- C4: for a tool with a (non-empty) entry in the tools configuration
that `is_tool_installed` reports not installed, `uninstall_tool`
returns `(True, "Tool <name> is not installed.")`, changes no state
beyond the trace, and runs at most the version-check probe — never an
uninstall command. -/
theorem c4_uninstall_not_installed (o : Oracle) (s : St) (name : String)
    (htc : (getToolConfig s name).truthy = true)
    (hni : (isToolInstalled o s name (some (getToolConfig s name))).1 = false) :
    uninstallTool o s name =
      (true, "Tool " ++ name ++ " is not installed.",
        (isToolInstalled o s name (some (getToolConfig s name))).2) ∧
    (isToolInstalled o s name (some (getToolConfig s name))).2 =
      { s with trace := (isToolInstalled o s name (some (getToolConfig s name))).2.trace } ∧
    ((isToolInstalled o s name (some (getToolConfig s name))).2.trace = s.trace ∨
      (isToolInstalled o s name (some (getToolConfig s name))).2.trace =
        s.trace ++ [versionCmdOf (getPlatformConfig o (getToolConfig s name))
          (getToolConfig s name)]) := by
  refine ⟨?_, isToolInstalled_frame o s name _, ?_⟩
  · simp [uninstallTool, htc, hni]
  · have := isToolInstalled_trace o s name (some (getToolConfig s name))
    simpa using this

/-- C4 witness: on a host where nothing is installed, uninstalling the
configured tool `ngspice` reports success with the informational
message. -/
theorem c4_witness :
    uninstallTool baseOracle baseSt "ngspice" =
      (true, "Tool ngspice is not installed.",
        (isToolInstalled baseOracle baseSt "ngspice"
          (some (getToolConfig baseSt "ngspice"))).2) :=
  (c4_uninstall_not_installed baseOracle baseSt "ngspice" (by rfl) (by rfl)).1

/-! ### C9 — missing or invalid configuration files -/

/-- C9, counterexample to the claim as stated: with the tools
configuration file missing (so `load_config` gives `{}`), on a Windows
host without admin rights where Chocolatey is the package manager,
`install_tool` returns the admin-rights message, not
`"Tool <name> not found in configuration"`. -/
theorem c9_counterexample :
    loadConfig none = Json.obj [] ∧
    ¬ ((installTool { baseOracle with system := "windows", which := fun _ => true }
        { baseSt with toolsConfig := loadConfig none } "ngspice").2.1 =
        "Tool ngspice not found in configuration") := by
  refine ⟨rfl, ?_⟩
  intro h
  have h1 : (installTool { baseOracle with system := "windows", which := fun _ => true }
      { baseSt with toolsConfig := loadConfig none } "ngspice").2.1 =
      "Administrator privileges are required to install tools with Chocolatey. Please run the terminal as an administrator." := rfl
  rw [h1] at h
  exact absurd h (by decide)

/-- C9 (amended): a missing or invalid configuration file loads as the
empty mapping rather than raising, and consequently, for every tool
name and on every host, `update_tool` and `uninstall_tool` return
`(False, "Tool <name> not found in configuration")` without changing
any state, as does `install_tool` except when the Windows/Chocolatey
administrator gate rejects the call first with an admin-rights
message. -/
theorem c9_missing_config (o : Oracle) (s : St) (name : String)
    (hcfg : s.toolsConfig = loadConfig none) :
    loadConfig none = Json.obj [] ∧
    updateTool o s name = (false, "Tool " ++ name ++ " not found in configuration", s) ∧
    uninstallTool o s name = (false, "Tool " ++ name ++ " not found in configuration", s) ∧
    ((o.system == "windows" && !o.isAdmin && (getPackageManager o == "choco")) = false →
      installTool o s name =
        (false, "Tool " ++ name ++ " not found in configuration", s)) := by
  have htc : (getToolConfig s name).truthy = false := by
    simp [getToolConfig, hcfg, loadConfig, Json.getD, Json.find?, lookupKV, Json.truthy]
  refine ⟨rfl, ?_, ?_, ?_⟩
  · simp [updateTool, htc]
  · simp [uninstallTool, htc]
  · intro hgate
    simp [installTool, hgate, htc]

/-- C9 witness: with no tools configuration file, `update_tool` reports
the tool missing from configuration even on a Windows host without
admin rights where Chocolatey is the package manager, and
`install_tool` reports it on a Linux host. -/
theorem c9_witness :
    updateTool { baseOracle with system := "windows", which := fun _ => true }
        { baseSt with toolsConfig := loadConfig none } "ngspice" =
      (false, "Tool ngspice not found in configuration",
        { baseSt with toolsConfig := loadConfig none }) ∧
    installTool baseOracle { baseSt with toolsConfig := loadConfig none } "ngspice" =
      (false, "Tool ngspice not found in configuration",
        { baseSt with toolsConfig := loadConfig none }) :=
  ⟨(c9_missing_config { baseOracle with system := "windows", which := fun _ => true }
      { baseSt with toolsConfig := loadConfig none } "ngspice" rfl).2.1,
   (c9_missing_config baseOracle { baseSt with toolsConfig := loadConfig none }
      "ngspice" rfl).2.2.2 (by decide)⟩

/-! ### C7 — installed-state detection -/

/-- C7: for a tool with a non-empty config, `is_tool_installed` returns
true exactly when the resolved version-check command (platform-specific
first, then tool-level) is non-empty and exits with status zero, or the
expected executable exists at `install_path/<tool>/bin` (`.exe` appended
on Windows), or that executable name is found on `PATH`. -/
theorem c7_is_tool_installed_iff (o : Oracle) (s : St) (name : String) (tc : Json)
    (htc : tc.truthy = true) :
    ((isToolInstalled o s name (some tc)).1 = true ↔
      ((¬ (versionCmdOf (getPlatformConfig o tc) tc = "")) ∧
        o.runExit (versionCmdOf (getPlatformConfig o tc) tc) = some 0) ∨
      o.pathExists (execPathOf o s tc name) = true ∨
      o.which (execNameOf o tc name) = true) := by
  by_cases hv : versionCmdOf (getPlatformConfig o tc) tc = ""
  all_goals rcases hre : o.runExit (versionCmdOf (getPlatformConfig o tc) tc) with _ | c
  all_goals (try by_cases hc : c = 0)
  all_goals by_cases hpe : o.pathExists (execPathOf o s tc name) = true
  all_goals by_cases hw : o.which (execNameOf o tc name) = true
  all_goals simp_all [isToolInstalled, runCommand, isToolAvailable]

/-- C7 witness: a tool whose executable is on `PATH` is detected as
installed. -/
theorem c7_witness :
    (isToolInstalled { baseOracle with which := fun _ => true } baseSt "ngspice"
      (some tcNgspice)).1 = true :=
  (c7_is_tool_installed_iff { baseOracle with which := fun _ => true } baseSt
    "ngspice" tcNgspice (by rfl)).mpr (Or.inr (Or.inr rfl))

/-! ### C10 — uninstall touches only the tool's own environment entry -/

theorem runCommand_state (o : Oracle) (s : St) (cmd : String) (b : Bool) :
    (runCommand o s cmd b).2 = { s with trace := s.trace ++ [cmd] } := rfl

theorem runCommand_userConfig (o : Oracle) (s : St) (cmd : String) (b : Bool) :
    (runCommand o s cmd b).2.userConfig = s.userConfig := rfl

theorem runCommand_environ (o : Oracle) (s : St) (cmd : String) (b : Bool) :
    (runCommand o s cmd b).2.environ = s.environ := rfl

theorem runCommand_userFile (o : Oracle) (s : St) (cmd : String) (b : Bool) :
    (runCommand o s cmd b).2.userFile = s.userFile := rfl

theorem runCommand_dirs (o : Oracle) (s : St) (cmd : String) (b : Bool) :
    (runCommand o s cmd b).2.dirs = s.dirs := rfl

theorem runCommand_installPath (o : Oracle) (s : St) (cmd : String) (b : Bool) :
    (runCommand o s cmd b).2.installPath = s.installPath := rfl

theorem runCommand_trace (o : Oracle) (s : St) (cmd : String) (b : Bool) :
    (runCommand o s cmd b).2.trace = s.trace ++ [cmd] := rfl

theorem Json.find?_set_self (j : Json) (k : String) (v : Json) :
    (j.set k v).find? k = some v := by
  simp only [Json.set, Json.find?]
  exact lookupKV_setKV_self k v j.fields

theorem Json.find?_set_other (j : Json) (k k' : String) (v : Json)
    (hne : k ≠ k') : (j.set k v).find? k' = j.find? k' := by
  simp only [Json.set, Json.find?]
  rw [lookupKV_setKV_other k k' v j.fields hne]
  cases j <;> rfl

theorem Json.find?_obj_fields (j : Json) (k : String) :
    (Json.obj j.fields).find? k = j.find? k := by
  cases j <;> rfl

/-- Looking up another tool's entry is unaffected by erasing one
tool's entry. -/
theorem find?_obj_erase (fs : List (String × Json)) (name other : String)
    (hne : name ≠ other) :
    (Json.obj (eraseKV name fs)).find? other = (Json.obj fs).find? other := by
  simp only [Json.find?]
  exact lookupKV_eraseKV_other name other fs hne

/-- After any `uninstall_tool` call the user config is either unchanged
or its `environment` object has exactly the uninstalled tool's entry
erased. -/
theorem uninstallTool_userConfig_cases (o : Oracle) (s : St) (name : String) :
    (uninstallTool o s name).2.2.userConfig = s.userConfig ∨
    (uninstallTool o s name).2.2.userConfig =
      s.userConfig.set ("environment")
        (.obj (eraseKV name (s.userConfig.getD ("environment") (.obj [])).fields)) := by
  simp only [uninstallTool]
  split
  · left; rfl
  · split
    · left
      exact isToolInstalled_userConfig o s name _
    · split
      · left
        exact isToolInstalled_userConfig o s name _
      · split
        · left
          simp [runCommand_userConfig, isToolInstalled_userConfig]
        · split
          · right
            simp only [saveUserConfig]
            simp [runCommand_userConfig, isToolInstalled_userConfig]
          · left
            simp [runCommand_userConfig, isToolInstalled_userConfig]

/-- C10: a successful `uninstall_tool` removes at most the uninstalled
tool's own entry from the user config's `environment` mapping: every
other tool's saved environment variables, and the `install_path` entry,
read back unchanged. -/
theorem c10_uninstall_preserves_other_env (o : Oracle) (s : St) (name : String)
    (hsucc : (uninstallTool o s name).1 = true) :
    (∀ other, ¬ (other = name) →
      ((uninstallTool o s name).2.2.userConfig.getD ("environment") (.obj [])).find? other =
        (s.userConfig.getD ("environment") (.obj [])).find? other) ∧
    (uninstallTool o s name).2.2.userConfig.find? ("install_path") =
      s.userConfig.find? ("install_path") := by
  rcases uninstallTool_userConfig_cases o s name with h | h
  · rw [h]
    exact ⟨fun other _ => rfl, rfl⟩
  · rw [h]
    constructor
    · intro other hother
      have hgd : (s.userConfig.set ("environment")
          (.obj (eraseKV name (s.userConfig.getD ("environment") (.obj [])).fields))).getD
            ("environment") (.obj []) =
          Json.obj (eraseKV name (s.userConfig.getD ("environment") (.obj [])).fields) := by
        simp [Json.getD, Json.find?_set_self]
      rw [hgd, find?_obj_erase _ name other (fun hh => hother hh.symm),
        Json.find?_obj_fields]
    · exact Json.find?_set_other _ _ _ _ (by decide)

/-! ### Reaching the command-execution step -/

/-- `update_tool` reaches its `run_command` call: the tool has a
non-empty config, is detected installed, the platform config is
non-empty and defines a non-empty `update` command. -/
def ReachesUpdateRun (o : Oracle) (s : St) (name : String) : Prop :=
  (getToolConfig s name).truthy = true ∧
  (isToolInstalled o s name (some (getToolConfig s name))).1 = true ∧
  (getPlatformConfig o (getToolConfig s name)).truthy = true ∧
  ((getPlatformConfig o (getToolConfig s name)).getStr ("update") == "") = false

/-- `uninstall_tool` reaches its `run_command` call: non-empty config,
detected installed, and a non-empty `uninstall` command. -/
def ReachesUninstallRun (o : Oracle) (s : St) (name : String) : Prop :=
  (getToolConfig s name).truthy = true ∧
  (isToolInstalled o s name (some (getToolConfig s name))).1 = true ∧
  ((getPlatformConfig o (getToolConfig s name)).getStr ("uninstall") == "") = false

/-- `install_tool` reaches its install-command execution: the admin gate
passes, the tool has a non-empty config, is not detected installed, the
dependency pre-flight either succeeds or the missing dependencies are
interactively installed, the platform config is non-empty with a
non-empty `install` command, and the install directory is created. -/
def ReachesInstallRun (o : Oracle) (s : St) (name : String) : Prop :=
  (o.system == "windows" && !o.isAdmin && (getPackageManager o == "choco")) = false ∧
  (getToolConfig s name).truthy = true ∧
  (isToolInstalled o s name (some (getToolConfig s name))).1 = false ∧
  ((checkToolDependencies o (getToolConfig s name)).1 = true ∨
    (promptInstallDependencies o = true ∧
      (installSystemDependencies o (isToolInstalled o s name (some (getToolConfig s name))).2
        (checkToolDependencies o (getToolConfig s name)).2).1 = true)) ∧
  (getPlatformConfig o (getToolConfig s name)).truthy = true ∧
  ((getPlatformConfig o (getToolConfig s name)).getStr ("install") == "") = false ∧
  o.mkdirOk (s.installPath ++ "/" ++ name) = true

/-! ### `run_command` with `check=True`: exit status decides the result -/

theorem runCommand_checked_some (o : Oracle) (s : St) (cmd : String) :
    (runCommand o s cmd true).1.isNone = false ↔ o.runExit cmd = some 0 := by
  simp only [runCommand]
  rcases h : o.runExit cmd with _ | c
  · simp
  · by_cases hc : c = 0
    · subst hc
      simp
    · simp [hc]

theorem runCommand_checked_none (o : Oracle) (s : St) (cmd : String) :
    (runCommand o s cmd true).1.isNone = true ↔ ¬ (o.runExit cmd = some 0) := by
  rcases hb : (runCommand o s cmd true).1.isNone with _ | _
  · simp [(runCommand_checked_some o s cmd).mp hb]
  · constructor
    · intro _ hcontra
      have := (runCommand_checked_some o s cmd).mpr hcontra
      rw [hb] at this
      exact Bool.true_eq_false.mp this
    · intro h
      rfl

/-! ### `installSystemDependencies` only extends the trace -/

theorem installSystemDependencies_frame (o : Oracle) (s : St) (deps : List String) :
    (installSystemDependencies o s deps).2 =
      { s with trace := (installSystemDependencies o s deps).2.trace } := by
  simp only [installSystemDependencies, runCommand]
  repeat' split
  all_goals rfl

theorem installSystemDependencies_environ (o : Oracle) (s : St) (deps : List String) :
    (installSystemDependencies o s deps).2.environ = s.environ := by
  rw [installSystemDependencies_frame]

theorem installSystemDependencies_userConfig (o : Oracle) (s : St) (deps : List String) :
    (installSystemDependencies o s deps).2.userConfig = s.userConfig := by
  rw [installSystemDependencies_frame]

theorem installSystemDependencies_userFile (o : Oracle) (s : St) (deps : List String) :
    (installSystemDependencies o s deps).2.userFile = s.userFile := by
  rw [installSystemDependencies_frame]

theorem installSystemDependencies_dirs (o : Oracle) (s : St) (deps : List String) :
    (installSystemDependencies o s deps).2.dirs = s.dirs := by
  rw [installSystemDependencies_frame]

theorem installSystemDependencies_installPath (o : Oracle) (s : St) (deps : List String) :
    (installSystemDependencies o s deps).2.installPath = s.installPath := by
  rw [installSystemDependencies_frame]

theorem saveEnvironmentVariables_trace (s : St) (name : String)
    (env : List (String × String)) :
    (saveEnvironmentVariables s name env).trace = s.trace := rfl

theorem saveEnvironmentVariables_environ (s : St) (name : String)
    (env : List (String × String)) :
    (saveEnvironmentVariables s name env).environ = s.environ := rfl

theorem saveUserConfig_trace (s : St) : (saveUserConfig s).trace = s.trace := rfl

theorem addToPath_trace (o : Oracle) (s : St) (p : String) :
    (addToPath o s p).trace = s.trace := rfl

/-- Normal form of the dependency check: the first component is
emptiness of the missing list, the second the missing list itself. -/
theorem checkToolDependencies_eq (o : Oracle) (tc : Json) :
    checkToolDependencies o tc =
      (((depsOf tc).filter (fun d => !(isToolAvailable o d))).isEmpty,
        (depsOf tc).filter (fun d => !(isToolAvailable o d))) := by
  unfold checkToolDependencies
  cases hval : ((depsOf tc).filter (fun d => !(isToolAvailable o d))).isEmpty
  · simp [hval]
  · rw [if_pos hval]
    have hnil : (depsOf tc).filter (fun d => !(isToolAvailable o d)) = [] :=
      List.isEmpty_iff.mp hval
    rw [hnil]

theorem checkToolDependencies_missing_nonempty (o : Oracle) (tc : Json)
    (h : (checkToolDependencies o tc).1 = false) :
    (checkToolDependencies o tc).2.isEmpty = false := by
  rw [checkToolDependencies_eq] at h ⊢
  exact h

/-- Under the reach conditions, `update_tool` runs the resolved update
command exactly once and succeeds iff it exits zero; a failure is
surfaced as the update-failed message. -/
theorem updateTool_run_spec (o : Oracle) (s : St) (name : String)
    (h : ReachesUpdateRun o s name) :
    ((updateTool o s name).1 = true ↔
      o.runExit ((getPlatformConfig o (getToolConfig s name)).getStr ("update")) = some 0) ∧
    ((updateTool o s name).1 = false →
      (updateTool o s name).2.1 = "Update of " ++ name ++ " failed") ∧
    (updateTool o s name).2.2.trace =
      (isToolInstalled o s name (some (getToolConfig s name))).2.trace ++
        [(getPlatformConfig o (getToolConfig s name)).getStr ("update")] := by
  obtain ⟨htc, hinst, hpc, hcmd⟩ := h
  by_cases hb : (runCommand o (isToolInstalled o s name (some (getToolConfig s name))).2
      ((getPlatformConfig o (getToolConfig s name)).getStr ("update")) true).1.isNone = true
  · have hne := (runCommand_checked_none o _ _).mp hb
    simp [updateTool, htc, hinst, hpc, hcmd, hb, hne, runCommand_trace]
  · have hb' : (runCommand o (isToolInstalled o s name (some (getToolConfig s name))).2
        ((getPlatformConfig o (getToolConfig s name)).getStr ("update")) true).1.isNone = false :=
      Bool.not_eq_true _ ▸ Bool.of_not_eq_true hb
    have hsome := (runCommand_checked_some o _ _).mp hb'
    simp [updateTool, htc, hinst, hpc, hcmd, hb', hsome, runCommand_trace]

/-- Under the reach conditions, `uninstall_tool` runs the resolved
uninstall command exactly once and succeeds iff it exits zero; a
failure is surfaced as the uninstallation-failed message. -/
theorem uninstallTool_run_spec (o : Oracle) (s : St) (name : String)
    (h : ReachesUninstallRun o s name) :
    ((uninstallTool o s name).1 = true ↔
      o.runExit ((getPlatformConfig o (getToolConfig s name)).getStr ("uninstall")) = some 0) ∧
    ((uninstallTool o s name).1 = false →
      (uninstallTool o s name).2.1 = "Uninstallation of " ++ name ++ " failed.") ∧
    (uninstallTool o s name).2.2.trace =
      (isToolInstalled o s name (some (getToolConfig s name))).2.trace ++
        [(getPlatformConfig o (getToolConfig s name)).getStr ("uninstall")] := by
  obtain ⟨htc, hinst, hcmd⟩ := h
  by_cases hb : (runCommand o (isToolInstalled o s name (some (getToolConfig s name))).2
      ((getPlatformConfig o (getToolConfig s name)).getStr ("uninstall")) true).1.isNone = true
  · have hne := (runCommand_checked_none o _ _).mp hb
    simp [uninstallTool, htc, hinst, hcmd, hb, hne, runCommand_trace]
  · have hb' : (runCommand o (isToolInstalled o s name (some (getToolConfig s name))).2
        ((getPlatformConfig o (getToolConfig s name)).getStr ("uninstall")) true).1.isNone = false :=
      Bool.not_eq_true _ ▸ Bool.of_not_eq_true hb
    have hsome := (runCommand_checked_some o _ _).mp hb'
    simp [uninstallTool, htc, hinst, hcmd, hb', hsome, runCommand_trace]
    split <;> simp [saveUserConfig_trace, runCommand_trace]

/-- Behaviour of the post-dependency phase of `install_tool`: it runs
the resolved install command exactly once, succeeds iff the command
exits zero, surfaces failure with the installation-failed message, and
restores the environment — except that on success with `add_to_path`
configured the tool's `bin` directory is prepended to `PATH`. -/
theorem installToolCont_spec (o : Oracle) (name : String) (pc : Json) (s2 : St)
    (hpc : pc.truthy = true)
    (hicmd : (pc.getStr ("install") == "") = false)
    (hmk : o.mkdirOk (s2.installPath ++ "/" ++ name) = true) :
    ((installToolCont o name pc s2).1 = true ↔
      o.runExit (pc.getStr ("install")) = some 0) ∧
    ((installToolCont o name pc s2).1 = false →
      (installToolCont o name pc s2).2.1 = "Installation of " ++ name ++ " failed") ∧
    (installToolCont o name pc s2).2.2.trace = s2.trace ++ [pc.getStr ("install")] ∧
    (installToolCont o name pc s2).2.2.environ =
      (if (installToolCont o name pc s2).1 &&
          (pc.getD ("add_to_path") (.bool false)).truthy then
        envAddPath o s2.environ (s2.installPath ++ "/" ++ name ++ "/bin")
      else s2.environ) := by
  rcases hre : o.runExit (pc.getStr ("install")) with _ | c
  · simp [installToolCont, runCommand, createDirectory, hpc, hicmd, hmk, hre, addToPath]
  · by_cases hc : c = 0
    · subst hc
      simp [installToolCont, runCommand, createDirectory, hpc, hicmd, hmk, hre,
        addToPath, saveEnvironmentVariables_trace, saveEnvironmentVariables_environ,
        addToPath_trace]
      split <;> simp [saveEnvironmentVariables, saveUserConfig, addToPath]
    · simp [installToolCont, runCommand, createDirectory, hpc, hicmd, hmk, hre, hc,
        addToPath]

/-- The state in which the post-dependency phase of `install_tool`
starts: after the installed probe, and after the interactive dependency
installation when the pre-flight failed. -/
def preInstallState (o : Oracle) (s : St) (name : String) : St :=
  if (checkToolDependencies o (getToolConfig s name)).1 then
    (isToolInstalled o s name (some (getToolConfig s name))).2
  else
    (installSystemDependencies o
      (isToolInstalled o s name (some (getToolConfig s name))).2
      (checkToolDependencies o (getToolConfig s name)).2).2

theorem preInstallState_environ (o : Oracle) (s : St) (name : String) :
    (preInstallState o s name).environ = s.environ := by
  unfold preInstallState
  split
  · exact isToolInstalled_environ o s name _
  · rw [installSystemDependencies_environ, isToolInstalled_environ]

theorem preInstallState_installPath (o : Oracle) (s : St) (name : String) :
    (preInstallState o s name).installPath = s.installPath := by
  unfold preInstallState
  split
  · exact isToolInstalled_installPath o s name _
  · rw [installSystemDependencies_installPath, isToolInstalled_installPath]

theorem preInstallState_userConfig (o : Oracle) (s : St) (name : String) :
    (preInstallState o s name).userConfig = s.userConfig := by
  unfold preInstallState
  split
  · exact isToolInstalled_userConfig o s name _
  · rw [installSystemDependencies_userConfig, isToolInstalled_userConfig]

/-- Under the admin-gate, config, not-installed and dependency reach
conditions, `install_tool` is exactly the post-dependency phase started
in `preInstallState`. -/
theorem installTool_reach_eq (o : Oracle) (s : St) (name : String)
    (hgate : (o.system == "windows" && !o.isAdmin && (getPackageManager o == "choco")) = false)
    (htc : (getToolConfig s name).truthy = true)
    (hninst : (isToolInstalled o s name (some (getToolConfig s name))).1 = false)
    (hdep : (checkToolDependencies o (getToolConfig s name)).1 = true ∨
      (promptInstallDependencies o = true ∧
        (installSystemDependencies o (isToolInstalled o s name (some (getToolConfig s name))).2
          (checkToolDependencies o (getToolConfig s name)).2).1 = true)) :
    installTool o s name =
      installToolCont o name (getPlatformConfig o (getToolConfig s name))
        (preInstallState o s name) := by
  by_cases hdepOk : (checkToolDependencies o (getToolConfig s name)).1 = true
  · simp [installTool, preInstallState, hgate, htc, hninst, hdepOk]
  · have hdf : (checkToolDependencies o (getToolConfig s name)).1 = false := by
      cases hval : (checkToolDependencies o (getToolConfig s name)).1
      · rfl
      · exact absurd hval hdepOk
    rcases hdep with hdep | ⟨hprompt, hdi⟩
    · exact absurd hdep hdepOk
    · have hmiss := checkToolDependencies_missing_nonempty o _ hdf
      simp [installTool, preInstallState, hgate, htc, hninst, hdf, hmiss, hprompt, hdi]

/-- Under the reach conditions, `install_tool` runs the resolved install
command exactly once and succeeds iff it exits zero; a failure is
surfaced as the installation-failed message. -/
theorem installTool_run_spec (o : Oracle) (s : St) (name : String)
    (h : ReachesInstallRun o s name) :
    ((installTool o s name).1 = true ↔
      o.runExit ((getPlatformConfig o (getToolConfig s name)).getStr ("install")) = some 0) ∧
    ((installTool o s name).1 = false →
      (installTool o s name).2.1 = "Installation of " ++ name ++ " failed") ∧
    (∃ pre, (installTool o s name).2.2.trace =
      pre ++ [(getPlatformConfig o (getToolConfig s name)).getStr ("install")]) := by
  obtain ⟨hgate, htc, hninst, hdep, hpc, hicmd, hmk⟩ := h
  have heq := installTool_reach_eq o s name hgate htc hninst hdep
  have hmk' : o.mkdirOk ((preInstallState o s name).installPath ++ "/" ++ name) = true := by
    rw [preInstallState_installPath]
    exact hmk
  have hs := installToolCont_spec o name (getPlatformConfig o (getToolConfig s name))
    (preInstallState o s name) hpc hicmd hmk'
  rw [heq]
  exact ⟨hs.1, hs.2.1, ⟨(preInstallState o s name).trace, hs.2.2.1⟩⟩

/-! ### C3 — environment restoration around the install command -/

/-- A tool configured with `add_to_path`. -/
def tcGhdl : Json :=
  .obj [("executable", .str "ghdl"),
        ("linux", .obj [("install", .str "install-ghdl"), ("add_to_path", .bool true)])]

/-- A state whose tools configuration defines only `ghdl`. -/
def sPath : St :=
  { baseSt with toolsConfig := .obj [("tools", .obj [("ghdl", tcGhdl)])] }

/-- A host on which the `ghdl` install command succeeds and directories
can be created. -/
def oPath : Oracle :=
  { baseOracle with
    runExit := fun c => if c == "install-ghdl" then some 0 else none
    mkdirOk := fun _ => true }

/-- C3, counterexample to the claim as stated: a successful install of a
tool configured with `add_to_path` returns with a process environment
different from the one before the call — `add_to_path` prepends the
tool's `bin` directory to `PATH` after the post-command restoration. -/
theorem c3_counterexample :
    (installTool oPath sPath "ghdl").1 = true ∧
    (installTool oPath sPath "ghdl").2.2.trace = ["install-ghdl"] ∧
    ¬ ((installTool oPath sPath "ghdl").2.2.environ = sPath.environ) := by
  refine ⟨rfl, rfl, ?_⟩
  intro hcontra
  have h1 : (installTool oPath sPath "ghdl").2.2.environ =
      [("PATH", "/root/esim-tools/ghdl/bin:/usr/bin")] := rfl
  have h2 : sPath.environ = [("PATH", "/usr/bin")] := rfl
  rw [h1, h2] at hcontra
  injection hcontra with hhead _
  injection hhead with _ hval
  exact absurd hval (by decide)

/-- C3 (amended): for every `install_tool` call that reaches the
install-command execution step, the process environment after the call
equals the environment before it — the configured variables are set
only transiently around the single subprocess invocation and restored
on both paths — except that on the success path with `add_to_path`
configured, the tool's `bin` directory is prepended to `PATH`. -/
theorem c3_environment_restored (o : Oracle) (s : St) (name : String)
    (h : ReachesInstallRun o s name) :
    (installTool o s name).2.2.environ =
      (if (installTool o s name).1 &&
          ((getPlatformConfig o (getToolConfig s name)).getD ("add_to_path")
            (.bool false)).truthy then
        envAddPath o s.environ (s.installPath ++ "/" ++ name ++ "/bin")
      else s.environ) := by
  obtain ⟨hgate, htc, hninst, hdep, hpc, hicmd, hmk⟩ := h
  have heq := installTool_reach_eq o s name hgate htc hninst hdep
  have hmk' : o.mkdirOk ((preInstallState o s name).installPath ++ "/" ++ name) = true := by
    rw [preInstallState_installPath]
    exact hmk
  have hs := installToolCont_spec o name (getPlatformConfig o (getToolConfig s name))
    (preInstallState o s name) hpc hicmd hmk'
  rw [heq, hs.2.2.2, preInstallState_environ, preInstallState_installPath]

/-- C3 witness: the concrete `ghdl` install reaches the execution step
and exhibits the amended environment equation. -/
theorem c3_witness :
    (installTool oPath sPath "ghdl").2.2.environ =
      (if (installTool oPath sPath "ghdl").1 &&
          ((getPlatformConfig oPath (getToolConfig sPath "ghdl")).getD ("add_to_path")
            (.bool false)).truthy then
        envAddPath oPath sPath.environ (sPath.installPath ++ "/" ++ "ghdl" ++ "/bin")
      else sPath.environ) :=
  c3_environment_restored oPath sPath "ghdl"
    ⟨rfl, rfl, rfl, Or.inl rfl, rfl, rfl, rfl⟩

/-! ### C6 — subprocess exit status is the only success signal -/

/-- A host where `ngspice` is installed and its update and uninstall
commands exit zero. -/
def oUpd : Oracle :=
  { baseOracle with
    which := fun t => t == "ngspice"
    runExit := fun c =>
      if c == "sudo apt-get upgrade -y ngspice" then some 0
      else if c == "sudo apt-get remove -y ngspice" then some 0
      else none }

/-- A host where `ngspice` is not installed, its install command exits
zero and directories can be created. -/
def oIns : Oracle :=
  { baseOracle with
    runExit := fun c => if c == "sudo apt-get install -y ngspice" then some 0 else none
    mkdirOk := fun _ => true }

/-- C6: for install, update and uninstall operations that reach their
command-execution step, the operation succeeds exactly when the single
invocation of the resolved command exits with status zero; a non-zero
exit or an exception yields a `(False, message)` result, and exactly
one invocation of the resolved command is appended to the command
trace — nothing is retried. -/
theorem c6_exit_status_only_success_signal :
    (∀ o s name, ReachesUpdateRun o s name →
      (((updateTool o s name).1 = true ↔
        o.runExit ((getPlatformConfig o (getToolConfig s name)).getStr ("update")) = some 0) ∧
      ((updateTool o s name).1 = false →
        (updateTool o s name).2.1 = "Update of " ++ name ++ " failed") ∧
      (updateTool o s name).2.2.trace =
        (isToolInstalled o s name (some (getToolConfig s name))).2.trace ++
          [(getPlatformConfig o (getToolConfig s name)).getStr ("update")])) ∧
    (∀ o s name, ReachesInstallRun o s name →
      (((installTool o s name).1 = true ↔
        o.runExit ((getPlatformConfig o (getToolConfig s name)).getStr ("install")) = some 0) ∧
      ((installTool o s name).1 = false →
        (installTool o s name).2.1 = "Installation of " ++ name ++ " failed") ∧
      (∃ pre, (installTool o s name).2.2.trace =
        pre ++ [(getPlatformConfig o (getToolConfig s name)).getStr ("install")]))) ∧
    (∀ o s name, ReachesUninstallRun o s name →
      (((uninstallTool o s name).1 = true ↔
        o.runExit ((getPlatformConfig o (getToolConfig s name)).getStr ("uninstall")) = some 0) ∧
      ((uninstallTool o s name).1 = false →
        (uninstallTool o s name).2.1 = "Uninstallation of " ++ name ++ " failed.") ∧
      (uninstallTool o s name).2.2.trace =
        (isToolInstalled o s name (some (getToolConfig s name))).2.trace ++
          [(getPlatformConfig o (getToolConfig s name)).getStr ("uninstall")])) :=
  ⟨fun o s name h => updateTool_run_spec o s name h,
   fun o s name h => installTool_run_spec o s name h,
   fun o s name h => uninstallTool_run_spec o s name h⟩

/-- C6 witness: concrete update, install and uninstall runs whose
commands exit zero succeed, and with a failing command the update
fails with the update-failed message. -/
theorem c6_witness :
    (updateTool oUpd baseSt "ngspice").1 = true ∧
    (installTool oIns baseSt "ngspice").1 = true ∧
    (uninstallTool oUpd baseSt "ngspice").1 = true ∧
    (updateTool { oUpd with runExit := fun _ => some 1 } baseSt "ngspice").2.1 =
      "Update of ngspice failed" :=
  ⟨((c6_exit_status_only_success_signal.1 oUpd baseSt "ngspice"
      ⟨rfl, rfl, rfl, rfl⟩).1).mpr (by decide),
   ((c6_exit_status_only_success_signal.2.1 oIns baseSt "ngspice"
      ⟨rfl, rfl, rfl, Or.inl rfl, rfl, rfl, rfl⟩).1).mpr (by decide),
   ((c6_exit_status_only_success_signal.2.2 oUpd baseSt "ngspice"
      ⟨rfl, rfl, rfl⟩).1).mpr (by decide),
   (c6_exit_status_only_success_signal.1 { oUpd with runExit := fun _ => some 1 }
      baseSt "ngspice" ⟨rfl, rfl, rfl, rfl⟩).2.1 (by decide)⟩

/-! ### C8 — dependency checking and surfacing missing dependencies -/

/-- A tool that depends on `git` and `curl`. -/
def tcDeps : Json :=
  .obj [("executable", .str "xtool"),
        ("dependencies", .arr [.str "git", .str "curl"]),
        ("linux", .obj [("install", .str "install-xtool")])]

/-- A state whose tools configuration defines only `xtool`. -/
def sDep : St :=
  { baseSt with toolsConfig := .obj [("tools", .obj [("xtool", tcDeps)])] }

/-- A host with `curl` but no `git`, declining the dependency prompt. -/
def oDepNo : Oracle :=
  { baseOracle with which := fun t => t == "curl" }

/-- A host with `curl` but no `git`, accepting the dependency prompt
(no package manager is available, so the installation fails). -/
def oDepYes : Oracle :=
  { baseOracle with which := fun t => t == "curl", promptYes := true }

/-- C8: `check_tool_dependencies` returns `(True, [])` exactly when
every declared dependency is on `PATH`, and otherwise `(False, missing)`
where `missing` is, in declaration order, exactly the dependencies not
found; `install_tool` surfaces unresolved missing dependencies as a
failure message naming them, both when the user declines to install
them and when their installation fails. -/
theorem c8_dependency_check (o : Oracle) (tc : Json) (s : St) (name : String) :
    (checkToolDependencies o tc = (true, []) ↔ ∀ d ∈ depsOf tc, o.which d = true) ∧
    ((∃ d ∈ depsOf tc, o.which d = false) →
      checkToolDependencies o tc =
        (false, (depsOf tc).filter (fun d => !(o.which d)))) ∧
    (getToolConfig s name = tc →
      (o.system == "windows" && !o.isAdmin && (getPackageManager o == "choco")) = false →
      (isToolInstalled o s name (some tc)).1 = false →
      tc.truthy = true →
      (checkToolDependencies o tc).1 = false →
      ((promptInstallDependencies o = false →
        installTool o s name =
          (false, "Missing dependencies: " ++
              String.intercalate (", ") (checkToolDependencies o tc).2,
            (isToolInstalled o s name (some tc)).2)) ∧
      (promptInstallDependencies o = true →
        (installSystemDependencies o (isToolInstalled o s name (some tc)).2
          (checkToolDependencies o tc).2).1 = false →
        installTool o s name =
          (false, "Failed to install dependencies: " ++
              String.intercalate (", ") (checkToolDependencies o tc).2,
            (installSystemDependencies o (isToolInstalled o s name (some tc)).2
              (checkToolDependencies o tc).2).2)))) := by
  refine ⟨?_, ?_, ?_⟩
  · rw [checkToolDependencies_eq]
    simp [Prod.ext_iff, List.isEmpty_iff, List.filter_eq_nil_iff, isToolAvailable]
  · intro hex
    rw [checkToolDependencies_eq]
    have hne : (depsOf tc).filter (fun d => !(isToolAvailable o d)) ≠ [] := by
      obtain ⟨d, hd, hw⟩ := hex
      intro hnil
      have := List.filter_eq_nil_iff.mp hnil d hd
      simp [isToolAvailable, hw] at this
    have hemp : ((depsOf tc).filter (fun d => !(isToolAvailable o d))).isEmpty = false := by
      cases hval : ((depsOf tc).filter (fun d => !(isToolAvailable o d))).isEmpty
      · rfl
      · exact absurd (List.isEmpty_iff.mp hval) hne
    rw [hemp]
    simp [isToolAvailable]
  · intro htceq hgate hninst htc hdf
    subst htceq
    have hmiss := checkToolDependencies_missing_nonempty o _ hdf
    constructor
    · intro hpromptNo
      simp [installTool, hgate, htc, hninst, hdf, hmiss, hpromptNo]
    · intro hpromptYes hdi
      simp [installTool, hgate, htc, hninst, hdf, hmiss, hpromptYes, hdi]

/-- C8 witness: with `git` missing, the check reports it, a declined
prompt surfaces it, and a failed dependency installation surfaces it. -/
theorem c8_witness :
    checkToolDependencies oDepNo tcDeps = (false, ["git"]) ∧
    (installTool oDepNo sDep "xtool").2.1 = "Missing dependencies: git" ∧
    (installTool oDepYes sDep "xtool").2.1 = "Failed to install dependencies: git" := by
  refine ⟨?_, ?_, ?_⟩
  · exact (c8_dependency_check oDepNo tcDeps sDep "xtool").2.1
      ⟨"git", by decide, rfl⟩
  · have h := ((c8_dependency_check oDepNo tcDeps sDep "xtool").2.2 rfl rfl rfl rfl rfl).1 rfl
    rw [h]
    rfl
  · have h := ((c8_dependency_check oDepYes tcDeps sDep "xtool").2.2 rfl rfl rfl rfl rfl).2 rfl rfl
    rw [h]
    rfl

/-- A host where `ngspice` is installed and its uninstall command exits
zero. -/
def oUnin : Oracle :=
  { baseOracle with
    which := fun t => t == "ngspice"
    runExit := fun c => if c == "sudo apt-get remove -y ngspice" then some 0 else none }

/-- A user config with an install path and saved environment variables
for two tools. -/
def sEnvCfg : St :=
  { baseSt with
    userConfig := .obj [("install_path", .str "/opt/tools"),
      ("environment", .obj [("ngspice", .obj [("NGSPICE_HOME", .str "/opt/ng")]),
                            ("kicad", .obj [("KICAD_HOME", .str "/opt/kc")])])] }

/-- C10 witness: a concrete successful uninstall of `ngspice` leaves
`kicad`'s saved environment variables and the `install_path` entry
unchanged. -/
theorem c10_witness :
    (uninstallTool oUnin sEnvCfg "ngspice").1 = true ∧
    ((uninstallTool oUnin sEnvCfg "ngspice").2.2.userConfig.getD ("environment")
        (.obj [])).find? ("kicad") =
      (sEnvCfg.userConfig.getD ("environment") (.obj [])).find? ("kicad") ∧
    (uninstallTool oUnin sEnvCfg "ngspice").2.2.userConfig.find? ("install_path") =
      sEnvCfg.userConfig.find? ("install_path") :=
  ⟨rfl,
   (c10_uninstall_preserves_other_env oUnin sEnvCfg "ngspice" rfl).1 "kicad" (by decide),
   (c10_uninstall_preserves_other_env oUnin sEnvCfg "ngspice" rfl).2⟩
